import Mathlib

/-
  Verification development for the FunASR-Nano-Desktop application
  (src/v1.0/main.py).  The definitions below are shallow embeddings of the
  lifecycle / concurrency / teardown logic of that file:

  * `workerRunEvents` / `workerRunFinished`   — WorkerThread.run (model loading)
  * `transcriptionRun`                        — TranscriptionThread.run
  * `load_model`                              — ModelLoadPage.load_model
  * `recursiveDelete`                         — MainWindow._recursive_delete
  * `unloadModel`                             — MainWindow.unload_model
  * `onModelLoaded`                           — MainWindow.on_model_loaded
  * `uiStep` / `runTrace`                     — the reachable GUI states, as
    driven by the Qt click / signal handlers of the two pages.

  External effects (filesystem checks, the opaque model capability, torch
  device state, file writes) enter as explicit boolean / value oracles in the
  input structures; emitted Qt signals and side effects are recorded as
  explicit action traces so that ordering claims can be stated.
-/

namespace FunASRNano

/-- One `progress_signal.emit(stage, value, total, message)` payload
(`WorkerThread.progress_signal` / `TranscriptionThread.progress_signal`). -/
structure ProgressEvent where
  stage : String
  value : Nat
  total : Nat
  message : String
deriving DecidableEq

/-! ### WorkerThread.run — model loading (main.py lines 35-63) -/

/-- Inputs / oracles of one `WorkerThread.run` execution:
`dirIsDir` is `os.path.isdir(os.path.abspath(self.model_dir))`,
`modelAvailable` is the module-level `MODEL_AVAILABLE` flag, and
`fromPretrained` is the outcome of
`FunASRNano.from_pretrained(...)` followed by `m.eval()`
(`Except.error e` when that code raises with message `e`). -/
structure LoadInput where
  dirIsDir : Bool
  modelAvailable : Bool
  fromPretrained : Except String Unit

def checkEvent : ProgressEvent := ⟨"检查模型路径", 10, 100, "正在检查模型路径..."⟩
def loadingEvent : ProgressEvent := ⟨"加载模型", 30, 100, "正在加载模型..."⟩
def cleanupEvent : ProgressEvent := ⟨"清理内存", 95, 100, "正在清理内存..."⟩
def finishEvent : ProgressEvent := ⟨"完成", 100, 100, "模型加载成功！"⟩

/-- The ordered list of progress events emitted by one `WorkerThread.run`
execution (main.py lines 37, 44, 53, 59). -/
def workerRunEvents (inp : LoadInput) : List ProgressEvent :=
  checkEvent ::
    if !inp.dirIsDir then [] else
    loadingEvent ::
      if !inp.modelAvailable then [] else
      match inp.fromPretrained with
      | .error _ => []
      | .ok _ => [cleanupEvent, finishEvent]

/-- The messages of `WorkerThread.finished_signal`, one constructor per
format string of the source. -/
inductive LoadMsg where
  /-- f"模型目录不存在: {model_dir}" -/
  | dirNotExist
  /-- "模型模块无法导入，请检查model.py" -/
  | moduleUnavailable
  /-- f"模型加载失败: {str(e)}" -/
  | loadFailed (err : String)
  /-- "模型加载成功！" -/
  | loadedOk
deriving DecidableEq

/-- The `(success, message)` part of the single `finished_signal` emission of
one `WorkerThread.run` execution (main.py lines 41, 46, 60, 63). -/
def workerRunFinished (inp : LoadInput) : Bool × LoadMsg :=
  if !inp.dirIsDir then (false, .dirNotExist)
  else if !inp.modelAvailable then (false, .moduleUnavailable)
  else
    match inp.fromPretrained with
    | .error e => (false, .loadFailed e)
    | .ok _ => (true, .loadedOk)

/-! ### TranscriptionThread.run (main.py lines 79-124) -/

/-- Just enough of Python's dynamic values to state what
`TranscriptionThread.run` does with the raw inference result `res`:
`isinstance(res, tuple)`, `isinstance(res[0], list)`, length checks, and
`res[0][0].get("text", ...)`. -/
inductive PyVal where
  | pyTuple (items : List PyVal)
  | pyList (items : List PyVal)
  | pyDict (entries : List (String × String))
  | pyStr (s : String)
  | pyNone

/-- Outcome of the result-parsing code of `TranscriptionThread.run`
(main.py lines 97-99):
`ok text` when the shape check passes and `.get` succeeds, `shapeFail` when
`isinstance(res, tuple) and len(res) > 0 and isinstance(res[0], list) and
len(res[0]) > 0` is false, and `attrError` when the shape check passes but
`res[0][0]` is not a dict, so `.get` raises (caught by the outer
`except`). -/
inductive ParseOut where
  | ok (text : String)
  | shapeFail
  | attrError
deriving DecidableEq

/-- Python's `str.strip()`: drop whitespace from both ends (structural
definition over the character list so that it computes). -/
def pyStrip (s : String) : String :=
  ⟨((s.data.dropWhile Char.isWhitespace).reverse.dropWhile Char.isWhitespace).reverse⟩

/-- main.py lines 97-99: the shape check and
`res[0][0].get("text", "未找到文本")` followed by `.strip()`. -/
def parseRes : PyVal → ParseOut
  | .pyTuple (first :: _) =>
    match first with
    | .pyList (x :: _) =>
      match x with
      | .pyDict entries => .ok (pyStrip ((entries.lookup "text").getD "未找到文本"))
      | _ => .attrError
    | _ => .shapeFail
  | _ => .shapeFail

/-- Behaviour of the opaque `self.model.inference(...)` call: the progress
events it pushes through the registered callback while running, and either
its return value or the message of the exception it raises. -/
structure InferBehavior where
  events : List ProgressEvent
  result : Except String PyVal

/-- Inputs / oracles of one `TranscriptionThread.run` execution.
`audioExists` is `os.path.isfile(self.audio_path)`; `writeOk` is whether
`open(self.output_path, 'w')` + the three writes succeed, with `writeErr`
the exception text when they do not. -/
structure TransInput where
  audioPath : String
  outputPath : Option String
  audioExists : Bool
  infer : InferBehavior
  writeOk : Bool
  writeErr : String

/-- The messages of `TranscriptionThread.result_signal`, one constructor per
format string of the source (elapsed-time formatting is abstracted away,
the branch structure is kept). -/
inductive TransMsg where
  /-- f"音频文件不存在: {self.audio_path}" -/
  | audioNotExist (path : String)
  /-- f"转录完成！耗时{...}秒，结果已保存到: {self.output_path}" -/
  | savedOk (out : String)
  /-- f"转录完成！耗时{...}秒，但保存文件失败: {str(e)}" -/
  | saveFailed (err : String)
  /-- f"转录完成！耗时{...}秒" -/
  | doneNoOutput
  /-- "无法解析识别结果" -/
  | parseFail
  /-- f"转录过程中发生错误: {str(e)}" -/
  | runError (err : String)
deriving DecidableEq

/-- The observable actions of `TranscriptionThread.run`, in program order. -/
inductive TransAction where
  /-- `self.model.set_progress_callback(self._progress_callback)` (line 84) -/
  | setProgressCallback
  /-- `self.progress_signal.emit(...)`, directly or through the callback -/
  | emitProgress (e : ProgressEvent)
  /-- the `self.model.inference(...)` call is entered (line 94) -/
  | runInference
  /-- `open(self.output_path, 'w')` and the report writes (lines 107-110) -/
  | writeOutput (path : String)
  /-- `self.result_signal.emit(result, success, message)` -/
  | emitResult (text : String) (success : Bool) (msg : TransMsg)
deriving DecidableEq

/-- "准备音频" event of main.py line 86. -/
def prepEvent : ProgressEvent := ⟨"准备音频", 5, 100, "正在准备音频文件..."⟩

/-- Stands for `str(e)` of the `AttributeError` raised by `.get` on a
non-dict first element. -/
def attrErrText : String := "AttributeError"

/-- Shallow embedding of `TranscriptionThread.run` (main.py lines 79-124) as
the ordered list of its observable actions. -/
def transcriptionRun (inp : TransInput) : List TransAction :=
  TransAction.setProgressCallback :: TransAction.emitProgress prepEvent ::
    if !inp.audioExists then
      [.emitResult "" false (.audioNotExist inp.audioPath)]
    else
      TransAction.runInference :: (inp.infer.events.map TransAction.emitProgress ++
        match inp.infer.result with
        | .error e => [.emitResult "" false (.runError e)]
        | .ok res =>
          match parseRes res with
          | .attrError => [.emitResult "" false (.runError attrErrText)]
          | .shapeFail => [.emitResult "" false .parseFail]
          | .ok text =>
            match inp.outputPath with
            | none => [.emitResult text true .doneNoOutput]
            | some op =>
              TransAction.writeOutput op ::
                if inp.writeOk then [.emitResult text true (.savedOk op)]
                else [.emitResult text true (.saveFailed inp.writeErr)])

/-- The progress events emitted during one `TranscriptionThread.run`. -/
def transcriptionEvents (inp : TransInput) : List ProgressEvent :=
  (transcriptionRun inp).filterMap fun a =>
    match a with
    | .emitProgress e => some e
    | _ => none

/-- Whether the run ended with `result_signal.emit(_, True, _)`. -/
def transcriptionSuccess (inp : TransInput) : Bool :=
  match (transcriptionRun inp).getLast? with
  | some (.emitResult _ s _) => s
  | _ => false

/-! ### ModelLoadPage.load_model (main.py lines 275-316) -/

/-- The three entries of the device combo box. -/
inductive DeviceChoice where
  /-- "自动选择 (优先使用GPU)" -/
  | autoChoice
  /-- "CPU" -/
  | cpuOnly
  /-- "GPU (CUDA)" -/
  | gpuCuda
deriving DecidableEq

/-- The observable actions of `ModelLoadPage.load_model`. -/
inductive LoadAction where
  /-- `QMessageBox.warning(..., "请先选择有效的模型目录！")` and return (line 280) -/
  | warnInvalidDir
  /-- `QMessageBox.warning(..., "CUDA不可用，...")` and return (line 289) -/
  | warnCudaUnavailable
  /-- `self.main_window.unload_model()` (line 299) -/
  | unloadCurrent
  /-- `WorkerThread(model_dir, device)` created and `.start()`ed with the
  resolved device string (lines 313-316) -/
  | startWorker (device : String)
deriving DecidableEq

/-- Shallow embedding of `ModelLoadPage.load_model`: `dirValid` is
`model_dir != "未选择模型目录" and os.path.isdir(model_dir)`,
`cudaAvailable` is `torch.cuda.is_available()`, `modelLoaded` is
`self.main_window.model is not None`. -/
def load_model (dirValid : Bool) (choice : DeviceChoice) (cudaAvailable : Bool)
    (modelLoaded : Bool) : List LoadAction :=
  if !dirValid then [.warnInvalidDir]
  else
    let proceed := fun (device : String) =>
      (if modelLoaded then [LoadAction.unloadCurrent] else []) ++
        [LoadAction.startWorker device]
    match choice with
    | .autoChoice => proceed (if cudaAvailable then "cuda:0" else "cpu")
    | .gpuCuda => if !cudaAvailable then [.warnCudaUnavailable] else proceed "cuda:0"
    | .cpuOnly => proceed "cpu"

/-! ### MainWindow._recursive_delete (main.py lines 852-886)

A torch module tree: `module cs ps bs` has named children `cs`
(`module._modules`), parameter names `ps` (`module._parameters`) and buffer
names `bs` (`module._buffers`); `plain` is any non-`nn.Module` object (only
`del module` applies to it). -/

mutual
inductive Resource where
  | plain : Resource
  | module : NamedList → List String → List String → Resource
inductive NamedList where
  | nil : NamedList
  | cons : String → Resource → NamedList → NamedList
end

/-- One observable step of the recursive deletion walk.  Each action is
tagged with the path (list of child names from the walk's root) of the
module it acts on. -/
inductive TdAction where
  /-- `module._modules.pop(name, None)` on the module at `path` (line 868) -/
  | detach (path : List String) (name : String)
  /-- `del param; module._parameters.pop(param_name, None)` (lines 873-874) -/
  | delParam (path : List String) (name : String)
  /-- `del buffer; module._buffers.pop(buffer_name, None)` (lines 879-880) -/
  | delBuffer (path : List String) (name : String)
  /-- `del module` (line 883) -/
  | delRef (path : List String)
deriving DecidableEq

/-- The path component of a teardown action. -/
def TdAction.path : TdAction → List String
  | .detach p _ => p
  | .delParam p _ => p
  | .delBuffer p _ => p
  | .delRef p => p

mutual
/-- Shallow embedding of `MainWindow._recursive_delete(module)`: for each
named child, recurse into it and only then pop it from `_modules`; then
delete the module's own parameters, then its buffers, then the module
reference itself. -/
def recursiveDelete (p : List String) : Resource → List TdAction
  | .plain => [.delRef p]
  | .module cs ps bs =>
      recursiveDeleteChildren p cs ++ ps.map (TdAction.delParam p) ++
        bs.map (TdAction.delBuffer p) ++ [.delRef p]
/-- The `for name in children_names` loop of `_recursive_delete`
(lines 861-868). -/
def recursiveDeleteChildren (p : List String) : NamedList → List TdAction
  | .nil => []
  | .cons n c rest =>
      recursiveDelete (p ++ [n]) c ++ [.detach p n] ++ recursiveDeleteChildren p rest
end

/-! ### MainWindow.unload_model / on_model_loaded (main.py lines 777-850, 888-913) -/

/-- The attributes of the loaded FunASRNano model object that
`unload_model` touches: the three optionally-present sub-modules and
whether `next(self.model.parameters()).is_cuda` holds.  `none` covers both
a missing attribute (`hasattr` false) and an attribute that is `None`. -/
structure FunASRModel where
  audio_encoder : Option Resource
  audio_adaptor : Option Resource
  llm : Option Resource
  onCuda : Bool

/-- The mutable model-slot state of `MainWindow`: `self.model`,
`self.model_kwargs` (each kwargs entry is its key paired with
`isinstance(value, torch.Tensor)`), and `self.current_model_name`. -/
structure SlotState where
  model : Option FunASRModel
  modelKwargs : Option (List (String × Bool))
  currentModelName : String

/-- Fault oracle for the teardown walk: whether `self.model.to('cpu')`
(the device-to-host migration, main.py line 798) raises. -/
structure TeardownFaults where
  toCpuFails : Bool
deriving DecidableEq

/-- Stands for `str(e)` of the exception raised by `self.model.to('cpu')`. -/
def cpuMigrationErr : String := "CUDA error during cpu migration"

/-- The observable actions of `MainWindow.unload_model` and
`MainWindow.on_model_loaded`. -/
inductive UAction where
  /-- `self.model.set_progress_callback(None)` (line 785) -/
  | clearCallback
  /-- `self.model.to('cpu')` (line 798) -/
  | toCpu
  /-- the `except Exception` handler: `print(f"卸载模型时出错: {str(e)}")`
  (line 848) — the exception is caught and logged, nothing escapes -/
  | raiseCaught (msg : String)
  /-- `self.model.audio_encoder = None` etc. (lines 801-806) -/
  | nullAttrs
  /-- `del self.model; self.model = None` (lines 809-810) -/
  | dropHandle
  /-- one step of `self._recursive_delete(module)` (line 816) -/
  | td (a : TdAction)
  /-- `del value` for a tensor-valued kwargs entry (line 823) -/
  | delKwargTensor (key : String)
  /-- `self.model_kwargs.clear()` (line 824) -/
  | clearKwargs
  /-- `gc.collect()` -/
  | gcPass
  /-- `torch.cuda.empty_cache()` (+ `ipc_collect`) -/
  | cudaEmptyCache
  /-- `self.model = model; self.model_kwargs = kwargs; ...` in
  `on_model_loaded` (lines 894-896) -/
  | installHandle
deriving DecidableEq

/-- Teardown trace of one collected sub-module reference
(`if module is not None: self._recursive_delete(module)`, lines 813-816). -/
def subTd (name : String) (r : Option Resource) : List TdAction :=
  match r with
  | none => []
  | some m => recursiveDelete [name] m

/-- Shallow embedding of `MainWindow.unload_model` (lines 777-850).
The whole body runs inside a single `try`/`except`; when the migration to
cpu raises, the handler logs and the method returns with every remaining
step skipped.  `cudaAvail` is `torch.cuda.is_available()`. -/
def unloadModel (s : SlotState) (f : TeardownFaults) (cudaAvail : Bool) :
    SlotState × List UAction :=
  match s.model with
  | none => (s, [])
  | some m =>
    if m.onCuda && f.toCpuFails then
      (s, [.clearCallback, .raiseCaught cpuMigrationErr])
    else
      let tdTrace := subTd "audio_encoder" m.audio_encoder ++
        subTd "audio_adaptor" m.audio_adaptor ++ subTd "llm" m.llm
      let kwActs : List UAction :=
        match s.modelKwargs with
        | none => []
        | some kws =>
          (kws.filter (·.2)).map (fun kv => UAction.delKwargTensor kv.1) ++
            [UAction.clearKwargs]
      (⟨none, none, ""⟩,
        [UAction.clearCallback] ++ (if m.onCuda then [UAction.toCpu] else []) ++
          [UAction.nullAttrs, UAction.dropHandle] ++ tdTrace.map UAction.td ++
          kwActs ++ [UAction.gcPass] ++
          (if cudaAvail then [UAction.cudaEmptyCache] else []) ++ [UAction.gcPass])

/-- Shallow embedding of `MainWindow.on_model_loaded(model, kwargs,
model_dir)` (lines 888-913): tear down the present occupant first, then
install the new handle, then a reclamation pass. -/
def onModelLoaded (s : SlotState) (newM : FunASRModel)
    (newKwargs : List (String × Bool)) (name : String) (f : TeardownFaults)
    (cudaAvail : Bool) : SlotState × List UAction :=
  let prior :=
    match s.model with
    | some _ => unloadModel s f cudaAvail
    | none => (s, [])
  (⟨some newM, some newKwargs, name⟩,
    prior.2 ++ [UAction.installHandle, UAction.gcPass] ++
      (if cudaAvail then [UAction.cudaEmptyCache] else []))

/-! ### The reachable GUI states (one control-surface context)

Events are the Qt entry points that touch the lifecycle state:
button clicks (a disabled button cannot fire) and the two worker
completion signals. -/

/-- `beforeAll P Q l` holds when every element satisfying `P` occurs
strictly before every element satisfying `Q` (equivalently: no `P`-element
appears after any `Q`-element). -/
def beforeAll {α : Type} (P Q : α → Bool) : List α → Bool
  | [] => true
  | a :: rest =>
    (if Q a then rest.all fun x => !P x else true) && beforeAll P Q rest

/-- The `value` components of a progress-event sequence. -/
def eventValues (es : List ProgressEvent) : List Nat := es.map (·.value)

/-- A non-decreasing sequence of naturals. -/
def nondecreasing : List Nat → Bool
  | [] => true
  | [_] => true
  | a :: b :: t => decide (a ≤ b) && nondecreasing (b :: t)

/-- Every event satisfies `value ≤ total`. -/
def valuesBounded (es : List ProgressEvent) : Bool :=
  es.all fun e => decide (e.value ≤ e.total)

/-- Whether a `UAction` is a recursive-deletion step. -/
def UAction.isTd : UAction → Bool
  | .td _ => true
  | _ => false

/-- Whether a `UAction` is the nulling of the named sub-resource
attributes. -/
def UAction.isNullAttrs : UAction → Bool
  | .nullAttrs => true
  | _ => false

/-- Whether a teardown action is a `_modules.pop`. -/
def TdAction.isDetach : TdAction → Bool
  | .detach _ _ => true
  | _ => false

/-- Actions on a strict descendant of the module at `p`. -/
def strictBelow (p : List String) (a : TdAction) : Bool :=
  decide (p.length < a.path.length)

/-- The parameter / buffer / reference releases of the module at `p`
itself (its `_modules.pop` bookkeeping excluded). -/
def ownRelease (p : List String) (a : TdAction) : Bool :=
  decide (a.path = p) && !a.isDetach

/-- Actions inside the subtree rooted at the child with path `q`. -/
def isSubtreeOf (q : List String) (a : TdAction) : Bool :=
  q.isPrefixOf a.path

/-- The detach (`_modules.pop`) of child `n` of the module at `p`. -/
def isDetachOf (p : List String) (n : String) (a : TdAction) : Bool :=
  decide (a = TdAction.detach p n)

/-! ### Concrete instances used by counterexamples and witnesses -/

/-- A well-formed inference result: `(` `[` `{"text": "你好"}` `]` `,...)`. -/
def goodRes : PyVal := .pyTuple [.pyList [.pyDict [("text", "你好")]]]

/-- A result matching the container shape whose first element is a dict
without a `"text"` key. -/
def noTextRes : PyVal := .pyTuple [.pyList [.pyDict []]]

/-- Transcription run with an existing audio file, a model that emits no
callback events and returns `goodRes`, and no output path. -/
def in5 : TransInput := ⟨"a.wav", none, true, ⟨[], .ok goodRes⟩, true, ""⟩

/-- Transcription run whose input audio file does not exist. -/
def in7 : TransInput := ⟨"missing.wav", none, false, ⟨[], .ok .pyNone⟩, true, ""⟩

/-- Transcription run returning `noTextRes`. -/
def in8 : TransInput := ⟨"a.wav", none, true, ⟨[], .ok noTextRes⟩, true, ""⟩

/-- Transcription run with an output path whose write fails. -/
def in9 : TransInput :=
  ⟨"a.wav", some "out.txt", true, ⟨[], .ok goodRes⟩, false, "Permission denied"⟩

/-- Transcription run whose raw result fails the container-shape check. -/
def inShape : TransInput := ⟨"a.wav", none, true, ⟨[], .ok (.pyList [])⟩, true, ""⟩

/-- A sub-module with one named child that owns a parameter. -/
def demoChild : Resource := .module .nil ["weight"] []

/-- A two-level module tree. -/
def demoTree : Resource := .module (.cons "c" demoChild .nil) [] []

/-- A loaded model affinitized to the accelerator, with an encoder
sub-module. -/
def cudaModel : FunASRModel := ⟨some demoTree, none, none, true⟩

/-- A slot holding `cudaModel` plus a tensor-bearing kwargs entry. -/
def cudaSlot : SlotState := ⟨some cudaModel, some [("frontend", true)], "demo-model"⟩

/-- A replacement model (cpu-resident, no sub-modules). -/
def newDemoModel : FunASRModel := ⟨none, none, none, false⟩

/-- A fault-free, successful load input. -/
def li0 : LoadInput := ⟨true, true, .ok ()⟩

theorem beforeAll_of_no_P {α : Type} (P Q : α → Bool) (l : List α)
    (h : ∀ x ∈ l, P x = false) : beforeAll P Q l = true := by
  induction l with
  | nil => rfl
  | cons a t ih =>
    have ht : ∀ x ∈ t, P x = false := fun x hx => h x (List.mem_cons_of_mem _ hx)
    simp only [beforeAll, Bool.and_eq_true]
    refine ⟨?_, ih ht⟩
    by_cases hq : Q a = true
    · simp only [hq, if_true, List.all_eq_true]
      intro x hx
      simp [ht x hx]
    · simp [hq]

theorem beforeAll_of_no_Q {α : Type} (P Q : α → Bool) (l : List α)
    (h : ∀ x ∈ l, Q x = false) : beforeAll P Q l = true := by
  induction l with
  | nil => rfl
  | cons a t ih =>
    have ht : ∀ x ∈ t, Q x = false := fun x hx => h x (List.mem_cons_of_mem _ hx)
    simp only [beforeAll, Bool.and_eq_true]
    exact ⟨by simp [h a (List.mem_cons_self a t)], ih ht⟩

theorem beforeAll_split {α : Type} (P Q : α → Bool) (l₁ l₂ : List α)
    (h₁ : ∀ x ∈ l₁, Q x = false) (h₂ : ∀ x ∈ l₂, P x = false) :
    beforeAll P Q (l₁ ++ l₂) = true := by
  induction l₁ with
  | nil => simpa using beforeAll_of_no_P P Q l₂ h₂
  | cons a t ih =>
    have ht : ∀ x ∈ t, Q x = false := fun x hx => h₁ x (List.mem_cons_of_mem _ hx)
    simp only [List.cons_append, beforeAll, Bool.and_eq_true]
    exact ⟨by simp [h₁ a (List.mem_cons_self a t)], ih ht⟩

theorem beforeAll_cons_of {α : Type} (P Q : α → Bool) (a : α) (l : List α)
    (hq : Q a = false) (h : beforeAll P Q l = true) :
    beforeAll P Q (a :: l) = true := by
  simp [beforeAll, hq, h]

theorem nondecreasing_cons (v : Nat) (l : List Nat)
    (h1 : nondecreasing l = true) (h2 : l.all (fun x => decide (v ≤ x)) = true) :
    nondecreasing (v :: l) = true := by
  cases l with
  | nil => rfl
  | cons b t =>
    simp only [List.all_cons, Bool.and_eq_true] at h2
    simp only [nondecreasing, Bool.and_eq_true]
    exact ⟨h2.1, h1⟩

theorem getLast?_shape1 {α : Type} (a b c : α) (l : List α) (x : α) :
    (a :: b :: c :: (l ++ [x])).getLast? = some x := by
  have h := List.getLast?_append_cons (a :: b :: c :: l) x []
  simpa using h

theorem getLast?_shape2 {α : Type} (a b c : α) (l : List α) (w x : α) :
    (a :: b :: c :: (l ++ w :: [x])).getLast? = some x := by
  have h := List.getLast?_append_cons (a :: b :: c :: (l ++ [w])) x []
  simpa using h

theorem getLast?_shape1a {α : Type} (c : α) (l : List α) (x : α) :
    (c :: (l ++ [x])).getLast? = some x := by
  have h := List.getLast?_append_cons (c :: l) x []
  simpa using h

theorem getLast?_shape2a {α : Type} (c : α) (l : List α) (w x : α) :
    (c :: (l ++ w :: [x])).getLast? = some x := by
  have h := List.getLast?_append_cons (c :: (l ++ [w])) x []
  simpa using h

theorem filterMap_emitProgress (l : List ProgressEvent) :
    (l.map TransAction.emitProgress).filterMap
      (fun a => match a with | TransAction.emitProgress e => some e | _ => none) = l := by
  induction l with
  | nil => rfl
  | cons a t ih => simp [List.filterMap_cons, ih]

theorem filterMap_emitProgress_comp (l : List ProgressEvent) :
    l.filterMap
      ((fun a => match a with | TransAction.emitProgress e => some e | _ => none) ∘
        TransAction.emitProgress) = l := by
  induction l with
  | nil => rfl
  | cons a t ih => simp [List.filterMap_cons, Function.comp, ih]

mutual
theorem pathLen_res (p : List String) (r : Resource) :
    ∀ a ∈ recursiveDelete p r, p.length ≤ a.path.length := by
  cases r with
  | plain =>
    intro a ha
    simp only [recursiveDelete, List.mem_singleton] at ha
    subst ha
    simp [TdAction.path]
  | module cs ps bs =>
    intro a ha
    simp only [recursiveDelete, List.mem_append, List.mem_map,
      List.mem_singleton] at ha
    rcases ha with (((hc | hp) | hb) | hd)
    · exact pathLen_children p cs a hc
    · rcases hp with ⟨n, -, rfl⟩
      simp [TdAction.path]
    · rcases hb with ⟨n, -, rfl⟩
      simp [TdAction.path]
    · subst hd
      simp [TdAction.path]
theorem pathLen_children (p : List String) (cs : NamedList) :
    ∀ a ∈ recursiveDeleteChildren p cs, p.length ≤ a.path.length := by
  cases cs with
  | nil =>
    intro a ha
    simp [recursiveDeleteChildren] at ha
  | cons n c rest =>
    intro a ha
    simp only [recursiveDeleteChildren, List.mem_append,
      List.mem_singleton] at ha
    rcases ha with ((hc | hd) | hr)
    · have h := pathLen_res (p ++ [n]) c a hc
      simp only [List.length_append, List.length_singleton] at h
      omega
    · subst hd
      simp [TdAction.path]
    · exact pathLen_children p rest a hr
end

theorem pathLen_children_strict (p : List String) :
    ∀ (cs : NamedList), ∀ a ∈ recursiveDeleteChildren p cs,
      a.isDetach = false → p.length < a.path.length
  | .nil => by
    intro a ha
    simp [recursiveDeleteChildren] at ha
  | .cons n c rest => by
    intro a ha hd
    simp only [recursiveDeleteChildren, List.mem_append,
      List.mem_singleton] at ha
    rcases ha with ((hc | heq) | hr)
    · have h := pathLen_res (p ++ [n]) c a hc
      simp only [List.length_append, List.length_singleton] at h
      omega
    · subst heq
      simp [TdAction.isDetach] at hd
    · exact pathLen_children_strict p rest a hr hd

/-! ### Claim theorems -/

/-- C6: `ModelLoadPage.load_model` resolves the device preference as
follows: the auto choice selects `"cuda:0"` when CUDA is available and
`"cpu"` otherwise; an explicit GPU choice without CUDA emits only the
warning (no unload, no worker started — the error comes before any load
work); an explicit CPU choice selects `"cpu"`. -/
theorem device_resolution (cuda m : Bool) :
    load_model true .autoChoice cuda m =
      (if m then [LoadAction.unloadCurrent] else []) ++
        [LoadAction.startWorker (if cuda then "cuda:0" else "cpu")] ∧
    load_model true .gpuCuda false m = [LoadAction.warnCudaUnavailable] ∧
    load_model true .gpuCuda true m =
      (if m then [LoadAction.unloadCurrent] else []) ++
        [LoadAction.startWorker "cuda:0"] ∧
    load_model true .cpuOnly cuda m =
      (if m then [LoadAction.unloadCurrent] else []) ++
        [LoadAction.startWorker "cpu"] := by
  cases cuda <;> cases m <;> exact ⟨rfl, rfl, rfl, rfl⟩

/-- C7 counterexample: on a run whose input audio file does not exist, the
very first action of `TranscriptionThread.run` is
`set_progress_callback` and the run then ends in the
"音频文件不存在" Failure — the task registers itself as the progress sink
before (not after) validating the input artifact, refuting the claimed
order at this concrete input. -/
theorem register_before_validate_cex :
    (transcriptionRun in7).head? = some TransAction.setProgressCallback ∧
    (transcriptionRun in7).getLast? =
      some (TransAction.emitResult "" false (TransMsg.audioNotExist "missing.wav")) := by
  decide

/-- C7 amended: the task registers itself as the progress sink first, then
emits the preparation event, then validates the input artifact — when the
artifact is missing it stops with the "音频文件不存在" Failure, and the
inference capability is only ever entered on runs where the artifact
exists. -/
theorem trans_validation (inp : TransInput) :
    (transcriptionRun inp).head? = some TransAction.setProgressCallback ∧
    (inp.audioExists = false →
      transcriptionRun inp =
        [TransAction.setProgressCallback, TransAction.emitProgress prepEvent,
          TransAction.emitResult "" false (TransMsg.audioNotExist inp.audioPath)]) ∧
    ((transcriptionRun inp).any
        (fun a => match a with | TransAction.runInference => true | _ => false) = true →
      inp.audioExists = true) := by
  refine ⟨rfl, ?_, ?_⟩
  · intro h
    simp [transcriptionRun, h]
  · intro h
    cases he : inp.audioExists with
    | true => rfl
    | false =>
      simp [transcriptionRun, he] at h

/-- C7 witness: `trans_validation` at the concrete missing-file input. -/
theorem trans_validation_witness :
    transcriptionRun in7 =
      [TransAction.setProgressCallback, TransAction.emitProgress prepEvent,
        TransAction.emitResult "" false (TransMsg.audioNotExist in7.audioPath)] :=
  (trans_validation in7).2.1 rfl

/-- C8 counterexample: a raw result matching the container shape whose
first element is a dict without a `"text"` key is NOT rejected — the run
ends in Success with the placeholder text, not in
`Failure("无法解析识别结果")`, refuting the claim that every result whose
first element does not expose a text field yields the parse Failure. -/
theorem parse_cex :
    (transcriptionRun in8).getLast? =
      some (TransAction.emitResult "未找到文本" true TransMsg.doneNoOutput) := by
  decide

/-- C8 amended: with an existing input and a returned (non-raising)
inference result, the run ends in `Failure("无法解析识别结果")` exactly
when the container-shape check (`tuple` non-empty, first element a
non-empty `list`) fails; when the shape matches but the first element has
no `.get` (not a dict) the `.get` call raises and the run ends in the
generic "转录过程中发生错误" Failure; and when `.get` succeeds — text key
present or not — the run ends in Success with the parsed text. -/
theorem parse_policy (inp : TransInput) (res : PyVal)
    (ha : inp.audioExists = true) (hr : inp.infer.result = Except.ok res) :
    (parseRes res = ParseOut.shapeFail →
      (transcriptionRun inp).getLast? =
        some (TransAction.emitResult "" false TransMsg.parseFail)) ∧
    (parseRes res = ParseOut.attrError →
      (transcriptionRun inp).getLast? =
        some (TransAction.emitResult "" false (TransMsg.runError attrErrText))) ∧
    (∀ t, parseRes res = ParseOut.ok t →
      ∃ msg, (transcriptionRun inp).getLast? =
        some (TransAction.emitResult t true msg)) := by
  refine ⟨?_, ?_, ?_⟩
  · intro hp
    simp [transcriptionRun, ha, hr, hp, getLast?_shape1, getLast?_shape1a]
  · intro hp
    simp [transcriptionRun, ha, hr, hp, getLast?_shape1, getLast?_shape1a]
  · intro t hp
    cases ho : inp.outputPath with
    | none =>
      exact ⟨TransMsg.doneNoOutput, by
        simp [transcriptionRun, ha, hr, hp, ho, getLast?_shape1, getLast?_shape1a]⟩
    | some op =>
      cases hw : inp.writeOk with
      | true =>
        exact ⟨TransMsg.savedOk op, by
          simp [transcriptionRun, ha, hr, hp, ho, hw, getLast?_shape2,
            getLast?_shape2a]⟩
      | false =>
        exact ⟨TransMsg.saveFailed inp.writeErr, by
          simp [transcriptionRun, ha, hr, hp, ho, hw, getLast?_shape2,
            getLast?_shape2a]⟩

/-- C8 witness: `parse_policy` at a concrete shape-mismatched result. -/
theorem parse_policy_witness :
    (transcriptionRun inShape).getLast? =
      some (TransAction.emitResult "" false TransMsg.parseFail) :=
  (parse_policy inShape (.pyList []) rfl rfl).1 rfl

/-- C9: when inference parses to text `t` and the supplied output path
cannot be written, the run still ends in Success carrying `t`, with the
"保存文件失败" message noting the write failure — the write failure never
converts the outcome to Failure. -/
theorem write_failure_nonfatal (inp : TransInput) (res : PyVal) (t op : String)
    (ha : inp.audioExists = true) (hr : inp.infer.result = Except.ok res)
    (hp : parseRes res = ParseOut.ok t) (ho : inp.outputPath = some op)
    (hw : inp.writeOk = false) :
    (transcriptionRun inp).getLast? =
      some (TransAction.emitResult t true (TransMsg.saveFailed inp.writeErr)) := by
  simp [transcriptionRun, ha, hr, hp, ho, hw, getLast?_shape2, getLast?_shape2a]

/-- C9 witness: `write_failure_nonfatal` at the concrete failing-write
input. -/
theorem write_failure_nonfatal_witness :
    (transcriptionRun in9).getLast? =
      some (TransAction.emitResult "你好" true
        (TransMsg.saveFailed in9.writeErr)) :=
  write_failure_nonfatal in9 goodRes "你好" "out.txt" rfl rfl (by decide) rfl rfl

/-- C10: a raw result whose container shape matches (non-empty tuple whose
first element is a non-empty list) but whose first element is a dict with
no `"text"` key still ends the run in Success, carrying the fixed
placeholder "未找到文本" as the recognized text. -/
theorem missing_text_placeholder (inp : TransInput)
    (entries : List (String × String)) (rest1 rest2 : List PyVal)
    (ha : inp.audioExists = true)
    (hr : inp.infer.result =
      Except.ok (.pyTuple (.pyList (.pyDict entries :: rest1) :: rest2)))
    (hl : entries.lookup "text" = none) :
    ∃ msg, (transcriptionRun inp).getLast? =
      some (TransAction.emitResult "未找到文本" true msg) := by
  have hp : parseRes (.pyTuple (.pyList (.pyDict entries :: rest1) :: rest2)) =
      ParseOut.ok "未找到文本" := by
    simp only [parseRes, hl, Option.getD_none]
    decide
  cases ho : inp.outputPath with
  | none =>
    exact ⟨TransMsg.doneNoOutput, by
      simp [transcriptionRun, ha, hr, hp, ho, getLast?_shape1, getLast?_shape1a]⟩
  | some op =>
    cases hw : inp.writeOk with
    | true =>
      exact ⟨TransMsg.savedOk op, by
        simp [transcriptionRun, ha, hr, hp, ho, hw, getLast?_shape2,
          getLast?_shape2a]⟩
    | false =>
      exact ⟨TransMsg.saveFailed inp.writeErr, by
        simp [transcriptionRun, ha, hr, hp, ho, hw, getLast?_shape2,
          getLast?_shape2a]⟩

/-- C10 witness: `missing_text_placeholder` at the concrete no-text-key
input. -/
theorem missing_text_placeholder_witness :
    ∃ msg, (transcriptionRun in8).getLast? =
      some (TransAction.emitResult "未找到文本" true msg) :=
  missing_text_placeholder in8 [] [] [] rfl rfl rfl

/-- C5 counterexample: a completed (successful) transcription run whose
model emits no callback events emits exactly one progress event, the
fixed preparation event with `value = 5 ≠ 100 = total` — so the final
progress event of this completed task does not satisfy
`value == total`, refuting the claim for the inference task. -/
theorem progress_cex :
    transcriptionSuccess in5 = true ∧
    transcriptionEvents in5 = [prepEvent] ∧
    prepEvent.value ≠ prepEvent.total := by
  refine ⟨by decide, by decide, by decide⟩

/-- C5 amended: the load task's progress events are non-decreasing,
bounded by their totals, and end at the `100/100` terminal event whenever
the task succeeds; the inference task instead emits the fixed `5/100`
preparation event followed verbatim by whatever the model's callback
emits (no terminal `value == total` event of its own) — its sequence is
non-decreasing only under the extra assumption that the model's own
events are non-decreasing and start at value ≥ 5. -/
theorem progress_contract (li : LoadInput) (ti : TransInput) :
    nondecreasing (eventValues (workerRunEvents li)) = true ∧
    valuesBounded (workerRunEvents li) = true ∧
    ((workerRunFinished li).1 = true →
      (workerRunEvents li).getLast? = some finishEvent) ∧
    transcriptionEvents ti =
      prepEvent :: (if ti.audioExists then ti.infer.events else []) ∧
    (nondecreasing (eventValues ti.infer.events) = true →
      ti.infer.events.all (fun e => decide (5 ≤ e.value)) = true →
      nondecreasing (eventValues (transcriptionEvents ti)) = true) := by
  have hl : nondecreasing (eventValues (workerRunEvents li)) = true ∧
      valuesBounded (workerRunEvents li) = true ∧
      ((workerRunFinished li).1 = true →
        (workerRunEvents li).getLast? = some finishEvent) := by
    obtain ⟨d, ma, fp⟩ := li
    rcases fp with e | ⟨⟩ <;> cases d <;> cases ma <;> refine ⟨?_, ?_, ?_⟩ <;>
      first
      | decide
      | simp [workerRunEvents, workerRunFinished, eventValues, nondecreasing,
          valuesBounded, checkEvent, loadingEvent, cleanupEvent, finishEvent]
  have h4 : transcriptionEvents ti =
      prepEvent :: (if ti.audioExists then ti.infer.events else []) := by
    cases he : ti.audioExists with
    | false => simp [transcriptionEvents, transcriptionRun, he]
    | true =>
      cases hres : ti.infer.result with
      | error e =>
        simp [transcriptionEvents, transcriptionRun, he, hres,
          List.filterMap_append, filterMap_emitProgress,
              filterMap_emitProgress_comp]
      | ok r =>
        cases hp : parseRes r with
        | shapeFail =>
          simp [transcriptionEvents, transcriptionRun, he, hres, hp,
            List.filterMap_append, filterMap_emitProgress,
              filterMap_emitProgress_comp]
        | attrError =>
          simp [transcriptionEvents, transcriptionRun, he, hres, hp,
            List.filterMap_append, filterMap_emitProgress,
              filterMap_emitProgress_comp]
        | ok t =>
          cases ho : ti.outputPath with
          | none =>
            simp [transcriptionEvents, transcriptionRun, he, hres, hp, ho,
              List.filterMap_append, filterMap_emitProgress,
              filterMap_emitProgress_comp]
          | some op =>
            cases hw : ti.writeOk <;>
              simp [transcriptionEvents, transcriptionRun, he, hres, hp, ho,
                hw, List.filterMap_append, filterMap_emitProgress,
              filterMap_emitProgress_comp]
  refine ⟨hl.1, hl.2.1, hl.2.2, h4, ?_⟩
  intro h1 h2
  rw [h4]
  cases he : ti.audioExists with
  | false => simp [eventValues, nondecreasing]
  | true =>
    have h2' : (eventValues ti.infer.events).all
        (fun x => decide (5 ≤ x)) = true := by
      simpa [eventValues, List.all_map, Function.comp] using h2
    have h5 := nondecreasing_cons 5 (eventValues ti.infer.events) h1 h2'
    simpa [eventValues, prepEvent] using h5

/-- C5 witness: `progress_contract` at a successful load input and the
concrete quiet-model transcription input. -/
theorem progress_contract_witness :
    (workerRunEvents li0).getLast? = some finishEvent ∧
    nondecreasing (eventValues (transcriptionEvents in5)) = true :=
  ⟨(progress_contract li0 in5).2.2.1 rfl,
    (progress_contract li0 in5).2.2.2.2 rfl rfl⟩

/-- C1 counterexample: a load completing while a cuda-resident model is
installed and the teardown's device-to-host migration raises:
`unload_model` aborts with the prior handle still installed (no
`dropHandle`, no recursive-deletion step in the trace), yet
`on_model_loaded` installs the new handle anyway — the prior handle's
teardown is NOT run to completion before the new handle becomes visible,
refuting the claim at this concrete input. -/
theorem install_without_teardown_cex :
    (unloadModel cudaSlot ⟨true⟩ true).1.model.isSome = true ∧
    (onModelLoaded cudaSlot newDemoModel [] "m2" ⟨true⟩ true).1.model =
      some newDemoModel ∧
    (onModelLoaded cudaSlot newDemoModel [] "m2" ⟨true⟩ true).2 =
      [UAction.clearCallback, UAction.raiseCaught cpuMigrationErr,
        UAction.installHandle, UAction.gcPass, UAction.cudaEmptyCache] :=
  ⟨rfl, rfl, by decide⟩

/-- C1 amended: the slot is a single field, so at most one handle is ever
held, and the new handle is installed only after the `unload_model` call
returns; when that teardown runs fault-free it runs to completion — the
slot and kwargs are emptied and the entire teardown action trace precedes
the installation of the new handle.  (When the teardown raises, it does
not complete, yet the new handle is still installed — see the
counterexample.) -/
theorem replace_after_teardown (s : SlotState) (m newM : FunASRModel)
    (k : List (String × Bool)) (nm : String) (f : TeardownFaults) (c : Bool)
    (hm : s.model = some m) (hf : f.toCpuFails = false) :
    (onModelLoaded s newM k nm f c).1.model = some newM ∧
    (onModelLoaded s newM k nm f c).2 =
      (unloadModel s f c).2 ++ [UAction.installHandle, UAction.gcPass] ++
        (if c then [UAction.cudaEmptyCache] else []) ∧
    (unloadModel s f c).1.model = none ∧
    (unloadModel s f c).1.modelKwargs = none := by
  refine ⟨rfl, ?_, ?_, ?_⟩
  · simp [onModelLoaded, hm]
  · simp [unloadModel, hm, hf]
  · simp [unloadModel, hm, hf]

/-- C1 witness: `replace_after_teardown` on the concrete occupied slot. -/
theorem replace_after_teardown_witness :
    (onModelLoaded cudaSlot newDemoModel [] "m2" ⟨false⟩ false).1.model =
      some newDemoModel ∧
    (onModelLoaded cudaSlot newDemoModel [] "m2" ⟨false⟩ false).2 =
      (unloadModel cudaSlot ⟨false⟩ false).2 ++
        [UAction.installHandle, UAction.gcPass] ++
        (if false then [UAction.cudaEmptyCache] else []) ∧
    (unloadModel cudaSlot ⟨false⟩ false).1.model = none ∧
    (unloadModel cudaSlot ⟨false⟩ false).1.modelKwargs = none :=
  replace_after_teardown cudaSlot cudaModel newDemoModel [] "m2" ⟨false⟩ false
    rfl rfl

/-- C2 counterexample: on a slot holding a cuda-resident model whose
device-to-host migration raises, `unload_model` stops after the caught
exception: the handle is still installed, the kwargs are still held, and
not a single recursive-deletion step ran — teardown did NOT continue on a
best-effort basis for the remaining steps and sub-resources. -/
theorem unload_abort_cex :
    (unloadModel cudaSlot ⟨true⟩ true).1.model.isSome = true ∧
    (unloadModel cudaSlot ⟨true⟩ true).1.modelKwargs.isSome = true ∧
    ((unloadModel cudaSlot ⟨true⟩ true).2.any UAction.isTd) = false ∧
    (unloadModel cudaSlot ⟨true⟩ true).2 =
      [UAction.clearCallback, UAction.raiseCaught cpuMigrationErr] := by
  refine ⟨by decide, by decide, by decide, by decide⟩

/-- C2 amended: every teardown exception is caught and logged
(`unload_model` always returns normally; on a migration fault its trace
ends in the logged `raiseCaught` entry), but teardown does not continue
past the fault: with a raising migration the slot is returned untouched,
while on a fault-free run the walk completes and empties the slot, the
kwargs and the model name. -/
theorem unload_exception_policy (s : SlotState) (m : FunASRModel)
    (f : TeardownFaults) (c : Bool) (hm : s.model = some m) :
    ((m.onCuda && f.toCpuFails) = true →
      unloadModel s f c =
        (s, [UAction.clearCallback, UAction.raiseCaught cpuMigrationErr])) ∧
    ((m.onCuda && f.toCpuFails) = false →
      (unloadModel s f c).1.model = none ∧
      (unloadModel s f c).1.modelKwargs = none ∧
      (unloadModel s f c).1.currentModelName = "") := by
  constructor <;> intro hb <;> simp [unloadModel, hm, hb]

/-- C2 witness: `unload_exception_policy` on the concrete faulting slot. -/
theorem unload_exception_policy_witness :
    unloadModel cudaSlot ⟨true⟩ true =
      (cudaSlot, [UAction.clearCallback, UAction.raiseCaught cpuMigrationErr]) :=
  (unload_exception_policy cudaSlot cudaModel ⟨true⟩ true rfl).1 rfl

/-- C3 counterexample: on the two-level tree `demoTree`, the detach
(`_modules.pop`) of child `"c"` does NOT precede the actions of the walk
inside that child's subtree — `_recursive_delete` recurses into the child
first and detaches it afterwards, refuting "nulls out each named
sub-resource reference before recursing into it, at every level". -/
theorem detach_order_cex :
    beforeAll (isDetachOf [] "c") (isSubtreeOf ["c"])
      (recursiveDelete [] demoTree) = false := by
  decide

/-- C3 amended: at the top level, `unload_model` nulls the named
sub-resource attributes before every recursive-deletion step of the walk;
and within `_recursive_delete` the release is depth-first post-order —
every action on a strict descendant of a module precedes every release of
that module's own parameters, buffers and reference.  (At nested levels
the child is detached from its owner only after the recursion into it —
see the counterexample.) -/
theorem teardown_order (s : SlotState) (f : TeardownFaults) (c : Bool)
    (p : List String) (r : Resource) :
    beforeAll UAction.isNullAttrs UAction.isTd (unloadModel s f c).2 = true ∧
    beforeAll (strictBelow p) (ownRelease p) (recursiveDelete p r) = true := by
  constructor
  · cases hm : s.model with
    | none => simp [unloadModel, hm, beforeAll]
    | some m =>
      cases hb : (m.onCuda && f.toCpuFails) with
      | true =>
        have hs : (unloadModel s f c).2 =
            [UAction.clearCallback, UAction.raiseCaught cpuMigrationErr] := by
          simp [unloadModel, hm, hb]
        rw [hs]
        decide
      | false =>
        cases hcuda : m.onCuda with
        | false =>
          cases hk : s.modelKwargs <;> cases c <;>
            (simp [unloadModel, hm, hcuda, hk]
             repeat
               refine beforeAll_cons_of _ _ _ _ rfl ?_
             apply beforeAll_of_no_P
             intro x hx
             cases x <;> simp_all [UAction.isNullAttrs])
        | true =>
          have hb2 : f.toCpuFails = false := by simpa [hcuda] using hb
          cases hk : s.modelKwargs <;> cases c <;>
            (simp [unloadModel, hm, hcuda, hb2, hk]
             repeat
               refine beforeAll_cons_of _ _ _ _ rfl ?_
             apply beforeAll_of_no_P
             intro x hx
             cases x <;> simp_all [UAction.isNullAttrs])
  · cases r with
    | plain =>
      simp [recursiveDelete, beforeAll, ownRelease, strictBelow,
        TdAction.isDetach]
    | module cs ps bs =>
      show beforeAll _ _
        (recursiveDeleteChildren p cs ++ ps.map (TdAction.delParam p) ++
          bs.map (TdAction.delBuffer p) ++ [TdAction.delRef p]) = true
      rw [List.append_assoc, List.append_assoc]
      apply beforeAll_split
      · intro x hx
        cases hd : x.isDetach with
        | true => simp [ownRelease, hd]
        | false =>
          have hlt := pathLen_children_strict p cs x hx hd
          have hne : x.path ≠ p := by
            intro he
            rw [he] at hlt
            omega
          simp [ownRelease, hne]
      · intro x hx
        simp only [List.mem_append, List.mem_map, List.mem_singleton] at hx
        have hpath : x.path = p := by
          rcases hx with ⟨n, -, rfl⟩ | ⟨n, -, rfl⟩ | rfl <;> rfl
        simp [strictBelow, hpath]

end FunASRNano
